import Mathlib

/-
Shallow embedding of the MineNBT codec (src/stream.py, src/nbt_tag.py, src/nbt.py).

Byte buffers are lists of naturals (each byte 0..255 in real inputs); Python
strings are lists of Unicode code points.  The cursor position is an Int,
because Stream.read accepts negative sizes and the Python code then moves the
index backwards, possibly below zero.  Python exceptions are modelled by the
Err type; every reader returns the result together with the stream state at
the moment the function returns or raises (Python's raise leaves the stream
object's index at its current value).
-/

namespace MineNBT

abbrev Bytes := List Nat
abbrev PyStr := List Nat

/-- Python exceptions distinguished by the code. -/
inductive Err where
  | eof        : Err  -- EOFError from Stream.read / Stream.peek
  | negLen     : Err  -- ValueError on a negative array length
  | notImpl    : Err  -- NotImplementedError on an unregistered tag id
  | typeErr    : Err  -- TypeError (read_string() missing its argument, len(None), TagEnd.read kwarg)
  | attrErr    : Err  -- AttributeError (a str has no TAG_NAME attribute)
  | valueErr   : Err  -- ValueError on a heterogeneous list at encode time
  | unicode    : Err  -- UnicodeDecodeError from bytes.decode("utf-8")
  | structErr  : Err  -- struct.error (wrong buffer size or value out of range)
  | indexErr   : Err  -- IndexError (b"" indexed at 0)
  | keyErr     : Err  -- KeyError (dict lookup of a missing key)
  | fuelOut    : Err  -- artefact of the embedding: recursion fuel exhausted
  deriving DecidableEq

/-- The byte stream of src/stream.py: an immutable buffer plus a position. -/
structure Stream where
  data : Bytes
  index : Int
  deriving DecidableEq

/-- Python's normalisation of one slice endpoint: a negative endpoint counts
from the end of the sequence, and endpoints are clamped to [0, len]. -/
def pyIdx (len : Nat) (i : Int) : Nat :=
  if i < 0 then (len + i).toNat else min i.toNat len

/-- Python's `l[start:stop]` (step 1). -/
def pySlice (l : Bytes) (start stop : Int) : Bytes :=
  (l.take (pyIdx l.length stop)).drop (pyIdx l.length start)

/-- Stream.read: bounds check `index + size > len(data)`, then return the
slice `data[index : index+size]` and advance the index by `size`.  On failure
(EOFError) the index is untouched. -/
def Stream.read (s : Stream) (size : Int) : Except Err Bytes × Stream :=
  if (s.data.length : Int) < s.index + size then (.error .eof, s)
  else (.ok (pySlice s.data s.index (s.index + size)), ⟨s.data, s.index + size⟩)

/-- Stream.peek: same bounds check and slice as read, index untouched. -/
def Stream.peek (s : Stream) (size : Int) : Except Err Bytes × Stream :=
  if (s.data.length : Int) < s.index + size then (.error .eof, s)
  else (.ok (pySlice s.data s.index (s.index + size)), s)

/-- Stream.alive: `index < len(data)`. -/
def Stream.alive (s : Stream) : Bool := s.index < (s.data.length : Int)

/-- Big-endian value of a byte list. -/
def beNat (b : Bytes) : Nat := b.foldl (fun a x => a * 256 + x) 0

/-- Two's-complement reinterpretation at width `w` bits. -/
def toSigned (w : Nat) (n : Nat) : Int :=
  if n < 2 ^ (w - 1) then (n : Int) else (n : Int) - 2 ^ w

/-- struct.unpack of a big-endian signed integer of `w` bits. -/
def unpackSigned (w : Nat) (b : Bytes) : Int := toSigned w (beNat b)

/-- Big-endian byte list of `n` modulo `2^(8*width)`, `width` bytes long. -/
def beBytes : Nat → Nat → Bytes
  | 0, _ => []
  | w + 1, n => beBytes w (n / 256) ++ [n % 256]

/-- struct.pack of a big-endian signed integer: struct.error when the value
does not fit the width. -/
def packSigned (width : Nat) (v : Int) : Except Err Bytes :=
  if v < -(2 ^ (8 * width - 1)) ∨ (2 ^ (8 * width - 1) : Int) ≤ v then .error .structErr
  else .ok (beBytes width (v % (2 ^ (8 * width) : Int)).toNat)

/-- Continuation byte of UTF-8. -/
def isCont (c : Nat) : Bool := decide (0x80 ≤ c ∧ c ≤ 0xBF)

/-- Admissible first continuation byte after a three-byte lead (excludes
overlong forms and surrogates, as CPython's strict utf-8 codec does). -/
def contE (b c : Nat) : Bool :=
  if b = 0xE0 then decide (0xA0 ≤ c ∧ c ≤ 0xBF)
  else if b = 0xED then decide (0x80 ≤ c ∧ c ≤ 0x9F)
  else decide (0x80 ≤ c ∧ c ≤ 0xBF)

/-- Admissible first continuation byte after a four-byte lead (excludes
overlong forms and code points above U+10FFFF). -/
def contF (b c : Nat) : Bool :=
  if b = 0xF0 then decide (0x90 ≤ c ∧ c ≤ 0xBF)
  else if b = 0xF4 then decide (0x80 ≤ c ∧ c ≤ 0x8F)
  else decide (0x80 ≤ c ∧ c ≤ 0xBF)

/-- bytes.decode("utf-8") with strict error handling: code points out, or
none on a UnicodeDecodeError. -/
def utf8Decode : Bytes → Option PyStr
  | [] => some []
  | b :: rest =>
    if b ≤ 0x7F then (utf8Decode rest).map (fun t => b :: t)
    else if 0xC2 ≤ b ∧ b ≤ 0xDF then
      match rest with
      | c1 :: r =>
        if isCont c1 then (utf8Decode r).map (fun t => ((b - 0xC0) * 0x40 + (c1 - 0x80)) :: t)
        else none
      | [] => none
    else if 0xE0 ≤ b ∧ b ≤ 0xEF then
      match rest with
      | c1 :: c2 :: r =>
        if contE b c1 && isCont c2 then
          (utf8Decode r).map (fun t => ((b - 0xE0) * 0x1000 + (c1 - 0x80) * 0x40 + (c2 - 0x80)) :: t)
        else none
      | _ => none
    else if 0xF0 ≤ b ∧ b ≤ 0xF4 then
      match rest with
      | c1 :: c2 :: c3 :: r =>
        if contF b c1 && isCont c2 && isCont c3 then
          (utf8Decode r).map (fun t =>
            ((b - 0xF0) * 0x40000 + (c1 - 0x80) * 0x1000 + (c2 - 0x80) * 0x40 + (c3 - 0x80)) :: t)
        else none
      | _ => none
    else none

/-- str.encode("utf-8") of a single code point. -/
def utf8EncodeChar (c : Nat) : Bytes :=
  if c ≤ 0x7F then [c]
  else if c ≤ 0x7FF then [0xC0 + c / 0x40, 0x80 + c % 0x40]
  else if c ≤ 0xFFFF then [0xE0 + c / 0x1000, 0x80 + c / 0x40 % 0x40, 0x80 + c % 0x40]
  else [0xF0 + c / 0x40000, 0x80 + c / 0x1000 % 0x40, 0x80 + c / 0x40 % 0x40, 0x80 + c % 0x40]

/-- str.encode("utf-8"). -/
def utf8Encode (s : PyStr) : Bytes := (s.map utf8EncodeChar).flatten

/-- The tag tree of src/nbt_tag.py.  A name is `none` where the Python code
stores None (unnamed decode of every variant except TagByte, whose unnamed
branch stores the empty string).  Float and Double payloads are modelled by
their big-endian IEEE-754 byte patterns, which is what the code reads and
writes. -/
inductive Tag where
  | TagEnd : Tag
  | TagByte (name : Option PyStr) (payload : Int) : Tag
  | TagShort (name : Option PyStr) (payload : Int) : Tag
  | TagInt (name : Option PyStr) (payload : Int) : Tag
  | TagLong (name : Option PyStr) (payload : Int) : Tag
  | TagFloat (name : Option PyStr) (payload : Bytes) : Tag
  | TagDouble (name : Option PyStr) (payload : Bytes) : Tag
  | TagByteArray (name : Option PyStr) (payload : List Int) : Tag
  | TagString (name : Option PyStr) (payload : PyStr) : Tag
  | TagList (name : Option PyStr) (payload : List Tag) : Tag
  | TagCompound (name : Option PyStr) (payload : List Tag) : Tag
  | TagIntArray (name : Option PyStr) (payload : List Int) : Tag
  | TagLongArray (name : Option PyStr) (payload : List Int) : Tag

/-- The TAG_ID class attribute of each variant (the key of TAG_MAP). -/
def Tag.TAG_ID : Tag → Nat
  | .TagEnd => 0x00
  | .TagByte _ _ => 0x01
  | .TagShort _ _ => 0x02
  | .TagInt _ _ => 0x03
  | .TagLong _ _ => 0x04
  | .TagFloat _ _ => 0x05
  | .TagDouble _ _ => 0x06
  | .TagByteArray _ _ => 0x07
  | .TagString _ _ => 0x08
  | .TagList _ _ => 0x09
  | .TagCompound _ _ => 0x0a
  | .TagIntArray _ _ => 0x0b
  | .TagLongArray _ _ => 0x0c

/-- The TAG_NAME class attribute, as a list of code points. -/
def strToPy (s : String) : PyStr := s.data.map Char.toNat

def Tag.TAG_NAME : Tag → PyStr
  | .TagEnd => strToPy "TAG_End"
  | .TagByte _ _ => strToPy "TAG_Byte"
  | .TagShort _ _ => strToPy "TAG_Short"
  | .TagInt _ _ => strToPy "TAG_Int"
  | .TagLong _ _ => strToPy "TAG_Long"
  | .TagFloat _ _ => strToPy "TAG_Float"
  | .TagDouble _ _ => strToPy "TAG_Double"
  | .TagByteArray _ _ => strToPy "TAG_Byte_Array"
  | .TagString _ _ => strToPy "TAG_String"
  | .TagList _ _ => strToPy "TAG_List"
  | .TagCompound _ _ => strToPy "TAG_Compound"
  | .TagIntArray _ _ => strToPy "TAG_IntArray"
  | .TagLongArray _ _ => strToPy "TAG_LongArray"

/-- The name attribute (TagEnd has none; the others store it at init). -/
def Tag.name : Tag → Option PyStr
  | .TagEnd => none
  | .TagByte n _ => n
  | .TagShort n _ => n
  | .TagInt n _ => n
  | .TagLong n _ => n
  | .TagFloat n _ => n
  | .TagDouble n _ => n
  | .TagByteArray n _ => n
  | .TagString n _ => n
  | .TagList n _ => n
  | .TagCompound n _ => n
  | .TagIntArray n _ => n
  | .TagLongArray n _ => n

/-- read_string: a 2-byte signed big-endian length, then that many bytes,
decoded as UTF-8. -/
def read_string (s : Stream) : Except Err PyStr × Stream :=
  match s.read 2 with
  | (.error e, s1) => (.error e, s1)
  | (.ok b, s1) =>
    if b.length = 2 then
      match s1.read (unpackSigned 16 b) with
      | (.error e, s2) => (.error e, s2)
      | (.ok b2, s2) =>
        match utf8Decode b2 with
        | none => (.error .unicode, s2)
        | some t => (.ok t, s2)
    else (.error .structErr, s1)

/-- The `name = read_string(stream) if named else dflt` line shared by the
readers; dflt is None for every variant except TagByte, which uses "". -/
def readNameOpt (named : Bool) (dflt : Option PyStr) (s : Stream) :
    Except Err (Option PyStr) × Stream :=
  if named then
    match read_string s with
    | (.error e, s1) => (.error e, s1)
    | (.ok n, s1) => (.ok (some n), s1)
  else (.ok dflt, s)

/-- A fixed-width scalar payload: read `width` bytes and unpack big-endian. -/
def readSignedPayload (width : Nat) (s : Stream) : Except Err Int × Stream :=
  match s.read (width : Int) with
  | (.error e, s1) => (.error e, s1)
  | (.ok b, s1) =>
    if b.length = width then (.ok (unpackSigned (8 * width) b), s1)
    else (.error .structErr, s1)

def TagByte.read (s : Stream) (named : Bool) : Except Err Tag × Stream :=
  match readNameOpt named (some []) s with
  | (.error e, s1) => (.error e, s1)
  | (.ok name, s1) =>
    match readSignedPayload 1 s1 with
    | (.error e, s2) => (.error e, s2)
    | (.ok p, s2) => (.ok (.TagByte name p), s2)

def TagShort.read (s : Stream) (named : Bool) : Except Err Tag × Stream :=
  match readNameOpt named none s with
  | (.error e, s1) => (.error e, s1)
  | (.ok name, s1) =>
    match readSignedPayload 2 s1 with
    | (.error e, s2) => (.error e, s2)
    | (.ok p, s2) => (.ok (.TagShort name p), s2)

def TagInt.read (s : Stream) (named : Bool) : Except Err Tag × Stream :=
  match readNameOpt named none s with
  | (.error e, s1) => (.error e, s1)
  | (.ok name, s1) =>
    match readSignedPayload 4 s1 with
    | (.error e, s2) => (.error e, s2)
    | (.ok p, s2) => (.ok (.TagInt name p), s2)

def TagLong.read (s : Stream) (named : Bool) : Except Err Tag × Stream :=
  match readNameOpt named none s with
  | (.error e, s1) => (.error e, s1)
  | (.ok name, s1) =>
    match readSignedPayload 8 s1 with
    | (.error e, s2) => (.error e, s2)
    | (.ok p, s2) => (.ok (.TagLong name p), s2)

def TagFloat.read (s : Stream) (named : Bool) : Except Err Tag × Stream :=
  match readNameOpt named none s with
  | (.error e, s1) => (.error e, s1)
  | (.ok name, s1) =>
    match s1.read 4 with
    | (.error e, s2) => (.error e, s2)
    | (.ok b, s2) =>
      if b.length = 4 then (.ok (.TagFloat name b), s2) else (.error .structErr, s2)

def TagDouble.read (s : Stream) (named : Bool) : Except Err Tag × Stream :=
  match readNameOpt named none s with
  | (.error e, s1) => (.error e, s1)
  | (.ok name, s1) =>
    match s1.read 8 with
    | (.error e, s2) => (.error e, s2)
    | (.ok b, s2) =>
      if b.length = 8 then (.ok (.TagDouble name b), s2) else (.error .structErr, s2)

/-- The element loop `[struct.unpack(..., data.read(width))[0] for _ in
range(n)]` over the sub-stream `data = Stream(sub)`: each iteration needs
`width` fresh bytes of `sub` and raises EOFError when they are missing. -/
def subElems (width : Nat) (sub : Bytes) : Nat → Except Err (List Int)
  | 0 => .ok []
  | n + 1 =>
    if width ≤ sub.length then
      match subElems width (sub.drop width) n with
      | .error e => .error e
      | .ok rest => .ok (unpackSigned (8 * width) (sub.take width) :: rest)
    else .error .eof

def TagByteArray.read (s : Stream) (named : Bool) : Except Err Tag × Stream :=
  match readNameOpt named none s with
  | (.error e, s1) => (.error e, s1)
  | (.ok name, s1) =>
    match readSignedPayload 4 s1 with
    | (.error e, s2) => (.error e, s2)
    | (.ok length, s2) =>
      if length < 0 then (.error .negLen, s2)
      else
        match s2.read length with
        | (.error e, s3) => (.error e, s3)
        | (.ok sub, s3) =>
          match subElems 1 sub length.toNat with
          | .error e => (.error e, s3)
          | .ok payload => (.ok (.TagByteArray name payload), s3)

def TagString.read (s : Stream) (named : Bool) : Except Err Tag × Stream :=
  match readNameOpt named none s with
  | (.error e, s1) => (.error e, s1)
  | (.ok name, s1) =>
    match read_string s1 with
    | (.error e, s2) => (.error e, s2)
    | (.ok p, s2) => (.ok (.TagString name p), s2)

/-- TagIntArray.read: the `named` branch runs `read_string()` with no
argument, a TypeError before the stream is touched; the sub-stream is built
from only `length` bytes even though each element consumes 4. -/
def TagIntArray.read (s : Stream) (named : Bool) : Except Err Tag × Stream :=
  if named then (.error .typeErr, s)
  else
    match readSignedPayload 4 s with
    | (.error e, s1) => (.error e, s1)
    | (.ok length, s1) =>
      if length < 0 then (.error .negLen, s1)
      else
        match s1.read length with
        | (.error e, s2) => (.error e, s2)
        | (.ok sub, s2) =>
          match subElems 4 sub length.toNat with
          | .error e => (.error e, s2)
          | .ok payload => (.ok (.TagIntArray none payload), s2)

/-- TagLongArray.read: same two slips as TagIntArray.read, width 8. -/
def TagLongArray.read (s : Stream) (named : Bool) : Except Err Tag × Stream :=
  if named then (.error .typeErr, s)
  else
    match readSignedPayload 4 s with
    | (.error e, s1) => (.error e, s1)
    | (.ok length, s1) =>
      if length < 0 then (.error .negLen, s1)
      else
        match s1.read length with
        | (.error e, s2) => (.error e, s2)
        | (.ok sub, s2) =>
          match subElems 8 sub length.toNat with
          | .error e => (.error e, s2)
          | .ok payload => (.ok (.TagLongArray none payload), s2)

/-- Tag.create given the dispatch into TAG_MAP: read the type-id byte, raise
NotImplementedError when the id is not a key of TAG_MAP (the keys are 0..12),
otherwise hand over to that class's read with named=True. -/
def createF (dispatch : Nat → Bool → Stream → Except Err Tag × Stream)
    (s : Stream) : Except Err Tag × Stream :=
  match s.read 1 with
  | (.error e, s1) => (.error e, s1)
  | (.ok [], s1) => (.error .indexErr, s1)
  | (.ok (x :: _), s1) =>
    if 12 < x then (.error .notImpl, s1) else dispatch x true s1

/-- The list comprehension of TagList.read: `n` elements, each decoded by
`tag_type.read(stream, named=False)`, in order. -/
def listLoopF (readElem : Stream → Except Err Tag × Stream) :
    Nat → Stream → Except Err (List Tag) × Stream
  | 0, s => (.ok [], s)
  | n + 1, s =>
    match readElem s with
    | (.error e, s1) => (.error e, s1)
    | (.ok t, s1) =>
      match listLoopF readElem n s1 with
      | (.error e, s2) => (.error e, s2)
      | (.ok ts, s2) => (.ok (t :: ts), s2)

/-- The while-True loop of TagCompound.read: Tag.create until a tag with
TAG_ID 0 arrives; that End tag is dropped, the others are kept in order.
The fuel bound is an artefact of the embedding (the Python loop can run
forever when a negative name length moves the cursor backwards). -/
def compLoopF (create : Stream → Except Err Tag × Stream) :
    Nat → Stream → Except Err (List Tag) × Stream
  | 0, s => (.error .fuelOut, s)
  | fuel + 1, s =>
    match create s with
    | (.error e, s1) => (.error e, s1)
    | (.ok t, s1) =>
      if t.TAG_ID = 0 then (.ok [], s1)
      else
        match compLoopF create fuel s1 with
        | (.error e, s2) => (.error e, s2)
        | (.ok ts, s2) => (.ok (t :: ts), s2)

/-- TAG_MAP[id].read(stream, named): the dispatch table of src/nbt_tag.py.
TagEnd.read is an instance method, so the list-element call
`TagEnd.read(stream, named=False)` is a TypeError, while the create call
`TagEnd.read(stream)` returns TagEnd() without consuming anything. -/
def TagMap.read : Nat → Nat → Bool → Stream → Except Err Tag × Stream
  | 0, _, _, s => (.error .fuelOut, s)
  | fuel + 1, id, named, s =>
    if id = 0 then
      if named then (.ok .TagEnd, s) else (.error .typeErr, s)
    else if id = 1 then TagByte.read s named
    else if id = 2 then TagShort.read s named
    else if id = 3 then TagInt.read s named
    else if id = 4 then TagLong.read s named
    else if id = 5 then TagFloat.read s named
    else if id = 6 then TagDouble.read s named
    else if id = 7 then TagByteArray.read s named
    else if id = 8 then TagString.read s named
    else if id = 9 then
      -- TagList.read
      match readNameOpt named none s with
      | (.error e, s1) => (.error e, s1)
      | (.ok name, s1) =>
        match s1.read 1 with
        | (.error e, s2) => (.error e, s2)
        | (.ok [], s2) => (.error .indexErr, s2)
        | (.ok (tag_id :: _), s2) =>
          if 12 < tag_id then (.error .notImpl, s2)
          else
            match readSignedPayload 4 s2 with
            | (.error e, s3) => (.error e, s3)
            | (.ok length, s3) =>
              if 0 < length then
                match listLoopF (TagMap.read fuel tag_id false) length.toNat s3 with
                | (.error e, s4) => (.error e, s4)
                | (.ok ts, s4) => (.ok (.TagList name ts), s4)
              else (.ok (.TagList name []), s3)
    else if id = 10 then
      -- TagCompound.read
      match readNameOpt named none s with
      | (.error e, s1) => (.error e, s1)
      | (.ok name, s1) =>
        match compLoopF (createF (TagMap.read fuel)) fuel s1 with
        | (.error e, s2) => (.error e, s2)
        | (.ok ts, s2) => (.ok (.TagCompound name ts), s2)
    else if id = 11 then TagIntArray.read s named
    else if id = 12 then TagLongArray.read s named
    else (.error .notImpl, s)

/-- Tag.create: the factory method of src/nbt_tag.py. -/
def Tag.create (fuel : Nat) (s : Stream) : Except Err Tag × Stream :=
  createF (TagMap.read fuel) s

/-- The while-alive loop of NBT.read: one root tag per iteration while the
cursor has bytes left. -/
def NBT.readLoop (fuel : Nat) : Nat → Stream → Except Err (List Tag) × Stream
  | 0, s => if s.alive then (.error .fuelOut, s) else (.ok [], s)
  | n + 1, s =>
    if s.alive then
      match Tag.create fuel s with
      | (.error e, s1) => (.error e, s1)
      | (.ok t, s1) =>
        match NBT.readLoop fuel n s1 with
        | (.error e, s2) => (.error e, s2)
        | (.ok ts, s2) => (.ok (t :: ts), s2)
    else (.ok [], s)

/-- NBT.read over a fresh Stream, as NBT.__init__ does. -/
def NBT.read (fuel : Nat) (data : Bytes) : Except Err (List Tag) × Stream :=
  NBT.readLoop fuel fuel ⟨data, 0⟩

/-- `b''.join(struct.pack(">b"/">i"/">q", value) for value in payload)`. -/
def packList (width : Nat) : List Int → Except Err Bytes
  | [] => .ok []
  | v :: vs =>
    match packSigned width v with
    | .error e => .error e
    | .ok b =>
      match packList width vs with
      | .error e => .error e
      | .ok r => .ok (b ++ r)

mutual

/-- The payload-only `write` method of each class.  The empty-list branch of
TagList.write returns the single byte 00 — no length field. -/
def Tag.write : Tag → Except Err Bytes
  | .TagEnd => .ok []
  | .TagByte _ p => packSigned 1 p
  | .TagShort _ p => packSigned 2 p
  | .TagInt _ p => packSigned 4 p
  | .TagLong _ p => packSigned 8 p
  | .TagFloat _ b => .ok b
  | .TagDouble _ b => .ok b
  | .TagByteArray _ p =>
    match packList 1 p with
    | .error e => .error e
    | .ok d =>
      match packSigned 4 (p.length : Int) with
      | .error e => .error e
      | .ok l => .ok (l ++ d)
  | .TagString _ p =>
    match packSigned 2 (p.length : Int) with
    | .error e => .error e
    | .ok l => .ok (l ++ utf8Encode p)
  | .TagList _ [] => .ok [0x00]
  | .TagList _ (t :: ts) =>
    -- all(isinstance(tag, tag_type)): same class as the first element
    if (t :: ts).all (fun x => x.TAG_ID == t.TAG_ID) then
      match packSigned 4 (((t :: ts).length : Nat) : Int) with
      | .error e => .error e
      | .ok l =>
        match writeAll (t :: ts) with
        | .error e => .error e
        | .ok d => .ok (t.TAG_ID :: (l ++ d))
    else .error .valueErr
  | .TagCompound _ ts =>
    match buildAll ts with
    | .error e => .error e
    | .ok d => .ok (d ++ [0x00])  -- TagEnd().build() is the single byte 00
  | .TagIntArray _ p =>
    match packList 4 p with
    | .error e => .error e
    | .ok d =>
      match packSigned 4 (p.length : Int) with
      | .error e => .error e
      | .ok l => .ok (l ++ d)
  | .TagLongArray _ p =>
    match packList 8 p with
    | .error e => .error e
    | .ok d =>
      match packSigned 4 (p.length : Int) with
      | .error e => .error e
      | .ok l => .ok (l ++ d)
termination_by t => (sizeOf t, 0)

/-- `b''.join(tag.write() for tag in payload)` of TagList.write. -/
def writeAll : List Tag → Except Err Bytes
  | [] => .ok []
  | t :: ts =>
    match Tag.write t with
    | .error e => .error e
    | .ok b =>
      match writeAll ts with
      | .error e => .error e
      | .ok r => .ok (b ++ r)
termination_by l => (sizeOf l, 0)

/-- Tag.build: type-id byte, then (except for TagEnd) the 16-bit
code-point-count prefix and the UTF-8 bytes of the name, then the payload.
A None name is `len(None)`, a TypeError. -/
def Tag.build : Tag → Except Err Bytes
  | .TagEnd => .ok [0x00]
  | t =>
    match t.name with
    | none => .error .typeErr
    | some nm =>
      match packSigned 2 (nm.length : Int) with
      | .error e => .error e
      | .ok l =>
        match Tag.write t with
        | .error e => .error e
        | .ok w => .ok (t.TAG_ID :: (l ++ utf8Encode nm ++ w))
termination_by t => (sizeOf t, 1)

/-- `b''.join(tag.build() for tag in payload)` of TagCompound.write. -/
def buildAll : List Tag → Except Err Bytes
  | [] => .ok []
  | t :: ts =>
    match Tag.build t with
    | .error e => .error e
    | .ok b =>
      match buildAll ts with
      | .error e => .error e
      | .ok r => .ok (b ++ r)
termination_by l => (sizeOf l, 0)

end

/-- NBT.build: `b"".join(tag.build() for tag in self.tags)`. -/
def NBT.build : List Tag → Except Err Bytes
  | [] => .ok []
  | t :: ts =>
    match Tag.build t with
    | .error e => .error e
    | .ok b =>
      match NBT.build ts with
      | .error e => .error e
      | .ok r => .ok (b ++ r)

/-- JSON-compatible values produced by the __json__ methods.  Float and
Double payloads appear as their byte patterns (jbytes), mirroring the raw
value the Python float carries. -/
inductive JVal where
  | jnull : JVal
  | jint (i : Int) : JVal
  | jstr (s : PyStr) : JVal
  | jbytes (b : Bytes) : JVal
  | jarr (l : List JVal) : JVal
  | jobj (fields : List (PyStr × JVal)) : JVal

/-- A dict lookup `d[key]` on a __json__ result. -/
def JVal.getItem (j : JVal) (k : PyStr) : Option JVal :=
  match j with
  | .jobj fields => fields.lookup k
  | _ => none

/-- The "name" value: the stored name, or JSON null for Python None. -/
def jname : Option PyStr → JVal
  | none => .jnull
  | some s => .jstr s

mutual

/-- The __json__ method of each class.  The empty-list branch of
TagList.__json__ binds tag_type to the *string* "TAG_End" and then reads
tag_type.TAG_NAME, an AttributeError; each list element contributes
`tag.__json__()["payload"]`, a KeyError for a TagEnd element whose dict has
no "payload" key. -/
def Tag.json : Tag → Except Err JVal
  | .TagEnd => .ok (.jobj [(strToPy "type", .jstr (strToPy "TAG_End"))])
  | .TagByte n p =>
    .ok (.jobj [(strToPy "type", .jstr (strToPy "TAG_Byte")),
                (strToPy "name", jname n), (strToPy "payload", .jint p)])
  | .TagShort n p =>
    .ok (.jobj [(strToPy "type", .jstr (strToPy "TAG_Short")),
                (strToPy "name", jname n), (strToPy "payload", .jint p)])
  | .TagInt n p =>
    .ok (.jobj [(strToPy "type", .jstr (strToPy "TAG_Int")),
                (strToPy "name", jname n), (strToPy "payload", .jint p)])
  | .TagLong n p =>
    .ok (.jobj [(strToPy "type", .jstr (strToPy "TAG_Long")),
                (strToPy "name", jname n), (strToPy "payload", .jint p)])
  | .TagFloat n b =>
    .ok (.jobj [(strToPy "type", .jstr (strToPy "TAG_Float")),
                (strToPy "name", jname n), (strToPy "payload", .jbytes b)])
  | .TagDouble n b =>
    .ok (.jobj [(strToPy "type", .jstr (strToPy "TAG_Double")),
                (strToPy "name", jname n), (strToPy "payload", .jbytes b)])
  | .TagByteArray n p =>
    .ok (.jobj [(strToPy "type", .jstr (strToPy "TAG_ByteArray")),
                (strToPy "name", jname n),
                (strToPy "payload", .jarr (p.map (fun v => .jint v)))])
  | .TagString n p =>
    .ok (.jobj [(strToPy "type", .jstr (strToPy "TAG_String")),
                (strToPy "name", jname n), (strToPy "payload", .jstr p)])
  | .TagList n payload =>
    match payload with
    | [] => .error .attrErr  -- tag_type = "TAG_End"; "TAG_End".TAG_NAME raises
    | t :: ts =>
      match jsonPayloadAll (t :: ts) with
      | .error e => .error e
      | .ok items =>
        .ok (.jobj [(strToPy "type", .jstr (strToPy "TAG_List")),
                    (strToPy "name", jname n),
                    (strToPy "data_type", .jstr t.TAG_NAME),
                    (strToPy "payload", .jarr items)])
  | .TagCompound n payload =>
    match jsonAll payload with
    | .error e => .error e
    | .ok items =>
      .ok (.jobj [(strToPy "type", .jstr (strToPy "TAG_Compound")),
                  (strToPy "name", jname n), (strToPy "payload", .jarr items)])
  | .TagIntArray n p =>
    .ok (.jobj [(strToPy "type", .jstr (strToPy "TAG_IntArray")),
                (strToPy "name", jname n),
                (strToPy "payload", .jarr (p.map (fun v => .jint v)))])
  | .TagLongArray n p =>
    .ok (.jobj [(strToPy "type", .jstr (strToPy "TAG_LongArray")),
                (strToPy "name", jname n),
                (strToPy "payload", .jarr (p.map (fun v => .jint v)))])

/-- `[tag.__json__()["payload"] for tag in payload]` of TagList.__json__. -/
def jsonPayloadAll : List Tag → Except Err (List JVal)
  | [] => .ok []
  | t :: ts =>
    match Tag.json t with
    | .error e => .error e
    | .ok j =>
      match j.getItem (strToPy "payload") with
      | none => .error .keyErr
      | some v =>
        match jsonPayloadAll ts with
        | .error e => .error e
        | .ok r => .ok (v :: r)

/-- `[tag.__json__() for tag in payload]` of TagCompound.__json__ (and of
NBT.dict). -/
def jsonAll : List Tag → Except Err (List JVal)
  | [] => .ok []
  | t :: ts =>
    match Tag.json t with
    | .error e => .error e
    | .ok j =>
      match jsonAll ts with
      | .error e => .error e
      | .ok r => .ok (j :: r)

end

/-- NBT.dict: `[tag.__json__() for tag in self.tags]`. -/
def NBT.dict (tags : List Tag) : Except Err (List JVal) := jsonAll tags

/-- One cursor operation: a read(n) or peek(n) call. -/
inductive Op where
  | read (size : Int) : Op
  | peek (size : Int) : Op
  deriving DecidableEq

def Op.size : Op → Int
  | .read n => n
  | .peek n => n

/-- Apply one operation to the stream. -/
def Stream.app (s : Stream) : Op → Except Err Bytes × Stream
  | .read n => s.read n
  | .peek n => s.peek n

/-- The sequence of stream states visited while running the operations in
order, the initial state included; a raised EOFError aborts the sequence
with the state unchanged. -/
def runTrace : List Op → Stream → List Stream
  | [], s => [s]
  | op :: ops, s =>
    match s.app op with
    | (.error _, _) => [s]
    | (.ok _, s1) => s :: runTrace ops s1

/-! ## Helper lemmas about the cursor -/

lemma pyIdx_natCast (len i : Nat) : pyIdx len (i : Int) = min i len := by
  simp [pyIdx]

lemma pySlice_natCast (l : Bytes) (a b : Nat) :
    pySlice l (a : Int) (b : Int) = (l.take b).drop a := by
  unfold pySlice
  rw [pyIdx_natCast, pyIdx_natCast]
  have h1 : l.take (min b l.length) = l.take b := by
    rcases Nat.le_total b l.length with h | h
    · rw [Nat.min_eq_left h]
    · rw [Nat.min_eq_right h, List.take_length, List.take_of_length_le h]
  rw [h1]
  rcases Nat.le_total a l.length with h | h
  · rw [Nat.min_eq_left h]
  · rw [Nat.min_eq_right h, List.drop_eq_nil_of_le, List.drop_eq_nil_of_le]
    · simp only [List.length_take]
      omega
    · simp only [List.length_take]
      omega

lemma Stream.read_ok (d : Bytes) (i n : Nat) (h : i + n ≤ d.length) :
    Stream.read ⟨d, (i : Int)⟩ (n : Int) =
      (.ok ((d.drop i).take n), ⟨d, ((i + n : Nat) : Int)⟩) := by
  unfold Stream.read
  have hc : ¬ ((d.length : Int) < (i : Int) + (n : Int)) := by omega
  rw [if_neg hc]
  have he : (i : Int) + (n : Int) = ((i + n : Nat) : Int) := by push_cast; ring
  rw [he, pySlice_natCast]
  have ht : (d.take (i + n)).drop i = (d.drop i).take n := by
    rw [List.drop_take]
    congr 1
    omega
  rw [ht]

lemma Stream.read_eof (d : Bytes) (i n : Nat) (h : d.length < i + n) :
    Stream.read ⟨d, (i : Int)⟩ (n : Int) = (.error .eof, ⟨d, (i : Int)⟩) := by
  unfold Stream.read
  have hc : (d.length : Int) < (i : Int) + (n : Int) := by omega
  rw [if_pos hc]

lemma drop_take_one (d : Bytes) (i : Nat) (h : i < d.length) :
    (d.drop i).take 1 = [d.getD i 0] := by
  rw [List.getD_eq_getElem d 0 h, List.drop_eq_getElem_cons h]
  rfl

/-- Stream.read with a literal size, shaped for the call sites of the
readers. -/
lemma Stream.read_lit (d : Bytes) (i n : Nat) (nI : Int) (hn : nI = (n : Int))
    (h : i + n ≤ d.length) :
    Stream.read ⟨d, (i : Int)⟩ nI =
      (.ok ((d.drop i).take n), ⟨d, ((i + n : Nat) : Int)⟩) := by
  rw [hn]
  exact Stream.read_ok d i n h

/-! ## C8: unknown type id -/

/-- C8: decoding a tag whose type-id byte is outside the registry (the keys
of TAG_MAP are 0..12), for example 0x0d, makes Tag.create raise
NotImplementedError — the unsupported-type condition — with the cursor
exactly one byte past where it started: no byte beyond the type-id byte is
consumed. -/
theorem C8_unknown_type_id (fuel : Nat) (d : Bytes) (i : Nat)
    (hi : i < d.length) (hid : 12 < d.getD i 0) :
    Tag.create fuel ⟨d, (i : Int)⟩ = (.error .notImpl, ⟨d, ((i + 1 : Nat) : Int)⟩) := by
  unfold Tag.create createF
  rw [Stream.read_lit d i 1 1 (by norm_num) (by omega), drop_take_one d i hi]
  simp only [hid, if_pos]

/-- Witness for C8 at the spec's concrete example: type id 0x0d. -/
theorem C8_unknown_type_id_witness :
    Tag.create 5 ⟨[0x0d], (0 : Int)⟩ = (.error .notImpl, ⟨[0x0d], ((0 + 1 : Nat) : Int)⟩) :=
  C8_unknown_type_id 5 [0x0d] 0 (by decide) (by decide)

/-! ## C1: decode-encode round trip -/

/-- C1 fails on the code: the document decoded from the 8 bytes
09 00 00 01 00 00 00 00 (a List named "" with element-type hint Byte and
length 0) re-encodes to the 4 bytes 09 00 00 00, because the empty-list
branch of TagList.write emits the lone byte 00; decoding those 4 bytes
raises EOFError instead of returning the original document. -/
theorem C1_roundtrip_fails_on_empty_list :
    NBT.read 20 [0x09, 0x00, 0x00, 0x01, 0x00, 0x00, 0x00, 0x00] =
      (.ok [Tag.TagList (some []) []],
        ⟨[0x09, 0x00, 0x00, 0x01, 0x00, 0x00, 0x00, 0x00], 8⟩) ∧
    NBT.build [Tag.TagList (some []) []] = .ok [0x09, 0x00, 0x00, 0x00] ∧
    (NBT.read 20 [0x09, 0x00, 0x00, 0x00]).1 = .error .eof := by
  refine ⟨rfl, ?_, rfl⟩
  simp [NBT.build, Tag.build, Tag.write, Tag.name, Tag.TAG_ID, packSigned, utf8Encode, beBytes]

/-! ## C2: IntArray / LongArray element decoding -/

/-- C2 fails on the code: a named IntArray decode raises TypeError at once
(read_string() is called without its stream argument), and an unnamed
IntArray decode of length 1 with four element bytes available raises
EOFError at index 5, because the sub-stream is built from `length` bytes
instead of `4 * length` (8 * length for LongArray). -/
theorem C2_array_element_decode_bug :
    TagIntArray.read ⟨[0, 0, 0, 0, 0, 1, 0, 0, 0, 5], 0⟩ true =
      (.error .typeErr, ⟨[0, 0, 0, 0, 0, 1, 0, 0, 0, 5], 0⟩) ∧
    TagIntArray.read ⟨[0, 0, 0, 1, 0, 0, 0, 5], 0⟩ false =
      (.error .eof, ⟨[0, 0, 0, 1, 0, 0, 0, 5], 5⟩) ∧
    TagLongArray.read ⟨[0, 0, 0, 1, 0, 0, 0, 0, 0, 0, 0, 7], 0⟩ false =
      (.error .eof, ⟨[0, 0, 0, 1, 0, 0, 0, 0, 0, 0, 0, 7], 5⟩) :=
  ⟨rfl, rfl, rfl⟩

/-! ## C3: empty-list encoding -/

/-- C3 fails on the code: the payload encoding of a List with zero elements
is the single byte 00, not the five bytes 00 00 00 00 00 the spec states,
whatever the list's name or construction. -/
theorem C3_empty_list_write_single_byte (nm : Option PyStr) :
    Tag.write (Tag.TagList nm []) = .ok [0x00] := by
  simp [Tag.write]

/-- Witness for C3 at a list constructed with the name "x". -/
theorem C3_empty_list_write_single_byte_witness :
    Tag.write (Tag.TagList (some [120]) []) = .ok [0x00] :=
  C3_empty_list_write_single_byte (some [120])

/-! ## C5: totality of the structural dump -/

/-- C5 fails on the code: the 8 bytes 09 00 00 00 00 00 00 00 decode
successfully to a document holding one empty List, and NBT.dict on that
document raises AttributeError (the empty-list branch of TagList.__json__
binds tag_type to the string "TAG_End" and then reads tag_type.TAG_NAME). -/
theorem C5_dump_not_total :
    (NBT.read 20 [0x09, 0x00, 0x00, 0x00, 0x00, 0x00, 0x00, 0x00]).1 =
      .ok [Tag.TagList (some []) []] ∧
    NBT.dict [Tag.TagList (some []) []] = .error .attrErr := by
  refine ⟨rfl, ?_⟩
  simp [NBT.dict, jsonAll, Tag.json]

/-! ## C7: negative array lengths -/

/-- C7 on the code: TagByteArray.read (named or unnamed) and the unnamed
TagIntArray/TagLongArray reads do fail with ValueError right after the
negative length prefix, the cursor exactly at its end; but the named
TagIntArray/TagLongArray reads fail with TypeError before any byte —
including the length prefix — is read, because of the read_string() slip. -/
theorem C7_negative_length_rejection :
    TagByteArray.read ⟨[0, 0, 255, 255, 255, 255, 9, 9], 0⟩ true =
      (.error .negLen, ⟨[0, 0, 255, 255, 255, 255, 9, 9], 6⟩) ∧
    TagByteArray.read ⟨[255, 255, 255, 255, 9], 0⟩ false =
      (.error .negLen, ⟨[255, 255, 255, 255, 9], 4⟩) ∧
    TagIntArray.read ⟨[255, 255, 255, 255, 9], 0⟩ false =
      (.error .negLen, ⟨[255, 255, 255, 255, 9], 4⟩) ∧
    TagLongArray.read ⟨[255, 255, 255, 255, 9], 0⟩ false =
      (.error .negLen, ⟨[255, 255, 255, 255, 9], 4⟩) ∧
    TagIntArray.read ⟨[0, 0, 255, 255, 255, 255], 0⟩ true =
      (.error .typeErr, ⟨[0, 0, 255, 255, 255, 255], 0⟩) ∧
    TagLongArray.read ⟨[0, 0, 255, 255, 255, 255], 0⟩ true =
      (.error .typeErr, ⟨[0, 0, 255, 255, 255, 255], 0⟩) :=
  ⟨rfl, rfl, rfl, rfl, rfl, rfl⟩

/-! ## C4: empty-list element-type validation -/

/-- C4 as stated is false on the code: the list payload bytes
0d 00 00 00 00 (declared element type 0x0d, length 0) abort the decode with
NotImplementedError — TagList.read checks the declared type id against
TAG_MAP before it even reads the length. -/
theorem C4_counterexample :
    TagMap.read 20 9 false ⟨[0x0d, 0x00, 0x00, 0x00, 0x00], 0⟩ =
      (.error .notImpl, ⟨[0x0d, 0x00, 0x00, 0x00, 0x00], 1⟩) := rfl

/-- Stream.read at an arbitrary Int position known to be a Nat. -/
lemma Stream.read_at (d : Bytes) (iI nI : Int) (i n : Nat)
    (hi : iI = (i : Int)) (hn : nI = (n : Int)) (h : i + n ≤ d.length) :
    Stream.read ⟨d, iI⟩ nI = (.ok ((d.drop i).take n), ⟨d, ((i + n : Nat) : Int)⟩) := by
  rw [hi, hn]
  exact Stream.read_ok d i n h

/-- readSignedPayload at an in-bounds Nat position. -/
lemma readSignedPayload_at (d : Bytes) (iI : Int) (i width : Nat)
    (hi : iI = (i : Int)) (h : i + width ≤ d.length) :
    readSignedPayload width ⟨d, iI⟩ =
      (.ok (unpackSigned (8 * width) ((d.drop i).take width)),
        ⟨d, ((i + width : Nat) : Int)⟩) := by
  unfold readSignedPayload
  rw [Stream.read_at d iI (width : Int) i width hi rfl h]
  have hl : ((d.drop i).take width).length = width := by
    simp only [List.length_take, List.length_drop]
    omega
  simp only [hl, if_pos]

/-- C4, amended: for a list payload whose declared element-type id is a key
of TAG_MAP (0..12), a length prefix ≤ 0 yields an empty List without the id
being used further; but the id is checked against the registry before the
length is read, so an unregistered id aborts the decode even when the length
is ≤ 0 (theorem C4_counterexample). -/
theorem C4_empty_list_amended (fuel : Nat) (id : Nat) (b4 rest : Bytes)
    (hid : id ≤ 12) (hb : b4.length = 4) (hneg : unpackSigned 32 b4 ≤ 0) :
    TagMap.read (fuel + 1) 9 false ⟨id :: (b4 ++ rest), 0⟩ =
      (.ok (Tag.TagList none []), ⟨id :: (b4 ++ rest), ((1 + 4 : Nat) : Int)⟩) := by
  have hlen : (id :: (b4 ++ rest)).length = 5 + rest.length := by
    simp only [List.length_cons, List.length_append, hb]
    omega
  simp only [TagMap.read]
  norm_num
  rw [readNameOpt]
  simp only [Bool.false_eq_true, if_neg, if_false]
  rw [Stream.read_at (id :: (b4 ++ rest)) 0 1 0 1 (by norm_num) (by norm_num) (by omega)]
  rw [show ((id :: (b4 ++ rest)).drop 0).take 1 = [id] from rfl]
  dsimp only
  rw [if_neg (by omega : ¬ 12 < id)]
  rw [readSignedPayload_at (id :: (b4 ++ rest)) _ 1 4 (by norm_num) (by omega)]
  rw [show (id :: (b4 ++ rest)).drop 1 = b4 ++ rest from rfl]
  rw [show (b4 ++ rest).take 4 = b4 by rw [← hb]; exact List.take_left b4 rest]
  dsimp only
  rw [if_neg (by omega : ¬ 0 < unpackSigned 32 b4)]
  norm_num

/-- Witness for the amended C4: element type 0 (End) with length -1 decodes
to the empty List. -/
theorem C4_empty_list_amended_witness :
    TagMap.read 8 9 false ⟨[0x00, 255, 255, 255, 255], 0⟩ =
      (.ok (Tag.TagList none []), ⟨[0x00, 255, 255, 255, 255], ((1 + 4 : Nat) : Int)⟩) :=
  C4_empty_list_amended 7 0 [255, 255, 255, 255] [] (by decide) (by decide) (by decide)

/-! ## C6: compound decoding -/

lemma Tag.TAG_ID_eq_zero (t : Tag) : t.TAG_ID = 0 ↔ t = Tag.TagEnd := by
  cases t <;> simp [Tag.TAG_ID]

/-- No tag stored by the compound loop has TAG_ID 0. -/
lemma compLoopF_no_end (create : Stream → Except Err Tag × Stream) :
    ∀ (fuel : Nat) (s s' : Stream) (l : List Tag),
      compLoopF create fuel s = (.ok l, s') → ∀ t ∈ l, t.TAG_ID ≠ 0 := by
  intro fuel
  induction fuel with
  | zero =>
    intro s s' l h
    simp [compLoopF] at h
  | succ n ih =>
    intro s s' l h
    simp only [compLoopF] at h
    rcases hcr : create s with ⟨res, s1⟩
    rw [hcr] at h
    cases res with
    | error e => simp at h
    | ok t =>
      dsimp only at h
      by_cases ht : t.TAG_ID = 0
      · rw [if_pos ht] at h
        injection h with h1 h2
        injection h1 with h1
        subst h1
        intro u hu
        simp at hu
      · rw [if_neg ht] at h
        rcases hrec : compLoopF create n s1 with ⟨res2, s2⟩
        rw [hrec] at h
        cases res2 with
        | error e => simp at h
        | ok ts =>
          dsimp only at h
          injection h with h1 h2
          injection h1 with h1
          subst h1
          intro u hu
          rcases List.mem_cons.mp hu with rfl | hu2
          · exact ht
          · exact ih s1 s2 ts hrec u hu2

/-- C6: the compound loop decodes full named tags through Tag.create (the
dispatch table) until an End tag is produced — conjunct 2: an End result
closes the loop at once; conjunct 3: a non-End tag is accumulated in front
of the rest, preserving arrival order; conjunct 1: the End terminator is
never stored as a child; conjunct 4: a compound whose buffer is exhausted
before any End tag fails with the out-of-bounds EOFError rather than
closing silently. -/
theorem C6_compound_decode :
    (∀ (cf fuel : Nat) (s s' : Stream) (l : List Tag),
        compLoopF (Tag.create cf) fuel s = (.ok l, s') → ∀ t ∈ l, t ≠ Tag.TagEnd) ∧
    (∀ (cf fuel : Nat) (s s1 : Stream),
        Tag.create cf s = (.ok Tag.TagEnd, s1) →
        compLoopF (Tag.create cf) (fuel + 1) s = (.ok [], s1)) ∧
    (∀ (cf fuel : Nat) (s s1 s2 : Stream) (t : Tag) (l : List Tag),
        Tag.create cf s = (.ok t, s1) → t ≠ Tag.TagEnd →
        compLoopF (Tag.create cf) fuel s1 = (.ok l, s2) →
        compLoopF (Tag.create cf) (fuel + 1) s = (.ok (t :: l), s2)) ∧
    (∀ (cf fuel : Nat) (d : Bytes),
        compLoopF (Tag.create cf) (fuel + 1) ⟨d, (d.length : Int)⟩ =
          (.error .eof, ⟨d, (d.length : Int)⟩)) := by
  refine ⟨?_, ?_, ?_, ?_⟩
  · intro cf fuel s s' l h t ht
    intro he
    exact compLoopF_no_end (Tag.create cf) fuel s s' l h t ht
      ((Tag.TAG_ID_eq_zero t).mpr he)
  · intro cf fuel s s1 h
    simp only [compLoopF]
    rw [h]
    rfl
  · intro cf fuel s s1 s2 t l hcr ht hrec
    simp only [compLoopF]
    rw [hcr]
    dsimp only
    rw [if_neg (fun h0 => ht ((Tag.TAG_ID_eq_zero t).mp h0)), hrec]
  · intro cf fuel d
    simp only [compLoopF]
    have hcr : Tag.create cf ⟨d, (d.length : Int)⟩ =
        (.error .eof, ⟨d, (d.length : Int)⟩) := by
      unfold Tag.create createF
      rw [show (1 : Int) = ((1 : Nat) : Int) from rfl,
        Stream.read_eof d d.length 1 (by omega)]
    rw [hcr]

/-- Witness for C6 at the spec's compound example payload
01 00 01 61 05 00 (Byte named "a" with value 5, then End), and at the empty
buffer for the missing-terminator conjunct. -/
theorem C6_compound_decode_witness :
    (∀ t ∈ [Tag.TagByte (some [97]) 5], t ≠ Tag.TagEnd) ∧
    compLoopF (Tag.create 9) 10 ⟨[1, 0, 1, 97, 5, 0], 0⟩ =
      (.ok [Tag.TagByte (some [97]) 5], ⟨[1, 0, 1, 97, 5, 0], 6⟩) ∧
    compLoopF (Tag.create 9) 10 ⟨[], 0⟩ = (.error .eof, ⟨[], 0⟩) := by
  refine ⟨?_, ?_, ?_⟩
  · exact C6_compound_decode.1 9 10 ⟨[1, 0, 1, 97, 5, 0], 0⟩ ⟨[1, 0, 1, 97, 5, 0], 6⟩
      [Tag.TagByte (some [97]) 5] rfl
  · exact C6_compound_decode.2.2.1 9 9 ⟨[1, 0, 1, 97, 5, 0], 0⟩ ⟨[1, 0, 1, 97, 5, 0], 5⟩
      ⟨[1, 0, 1, 97, 5, 0], 6⟩ (Tag.TagByte (some [97]) 5) [] rfl
      (fun h => Tag.noConfusion h) rfl
  · exact C6_compound_decode.2.2.2 9 9 []

/-! ## C9: cursor invariants -/

/-- C9 as stated is false: after read(1) the sequence read(-1) passes the
bounds check and moves the position from 1 back to 0 — the position is not
monotone — and on an empty buffer a single read(-1) drives the position to
-1, violating 0 ≤ position. -/
theorem C9_counterexample :
    (runTrace [Op.read 1, Op.read (-1)] ⟨[7], 0⟩).map Stream.index = [0, 1, 0] ∧
    (Stream.read ⟨[], 0⟩ (-1)).2.index = -1 := ⟨rfl, rfl⟩

/-- Running one operation with a non-negative size preserves the cursor
invariant and never moves the position backwards. -/
lemma Stream.app_ok (s : Stream) (op : Op) (hop : 0 ≤ op.size) (h0 : 0 ≤ s.index)
    (h1 : s.index ≤ s.data.length) {b : Bytes} {s1 : Stream}
    (h : s.app op = (.ok b, s1)) :
    s1.data = s.data ∧ s.index ≤ s1.index ∧ 0 ≤ s1.index ∧
      s1.index ≤ s.data.length := by
  cases op with
  | read n =>
    simp only [Op.size] at hop
    unfold Stream.app Stream.read at h
    dsimp only at h
    by_cases hc : (s.data.length : Int) < s.index + n
    · rw [if_pos hc] at h
      simp at h
    · rw [if_neg hc] at h
      injection h with h1' h2'
      subst h2'
      dsimp only
      refine ⟨rfl, by omega, by omega, by omega⟩
  | peek n =>
    simp only [Op.size] at hop
    unfold Stream.app Stream.peek at h
    dsimp only at h
    by_cases hc : (s.data.length : Int) < s.index + n
    · rw [if_pos hc] at h
      simp at h
    · rw [if_neg hc] at h
      injection h with h1' h2'
      subst h2'
      exact ⟨rfl, le_refl _, h0, h1⟩

/-- The trace always starts with the initial state. -/
lemma runTrace_cons (ops : List Op) (s : Stream) :
    ∃ l, runTrace ops s = s :: l := by
  cases ops with
  | nil => exact ⟨[], rfl⟩
  | cons op ops =>
    simp only [runTrace]
    rcases h : s.app op with ⟨res, s1⟩
    cases res with
    | error e => exact ⟨[], rfl⟩
    | ok b => exact ⟨runTrace ops s1, rfl⟩

/-- Invariant and monotonicity of the trace under non-negative sizes. -/
lemma runTrace_inv (ops : List Op) :
    ∀ (s : Stream), 0 ≤ s.index → s.index ≤ s.data.length →
      (∀ op ∈ ops, 0 ≤ op.size) →
      (∀ t ∈ runTrace ops s, 0 ≤ t.index ∧ t.index ≤ s.data.length) ∧
      (runTrace ops s).Chain' (fun a b => a.index ≤ b.index) := by
  induction ops with
  | nil =>
    intro s h0 h1 _
    refine ⟨?_, by simp [runTrace]⟩
    intro t ht
    simp only [runTrace, List.mem_singleton] at ht
    subst ht
    exact ⟨h0, h1⟩
  | cons op ops ih =>
    intro s h0 h1 hops
    have hop : 0 ≤ op.size := hops op (List.mem_cons_self op ops)
    have hrest : ∀ o ∈ ops, 0 ≤ Op.size o := fun o ho => hops o (List.mem_cons_of_mem op ho)
    rcases happ : s.app op with ⟨res, s1⟩
    cases res with
    | error e =>
      simp only [runTrace, happ]
      refine ⟨?_, by simp⟩
      intro t ht
      simp only [List.mem_singleton] at ht
      subst ht
      exact ⟨h0, h1⟩
    | ok b =>
      obtain ⟨hdata, hmono, h0', h1'⟩ := Stream.app_ok s op hop h0 h1 happ
      have hrec := ih s1 h0' (by rw [hdata]; exact h1') hrest
      simp only [runTrace, happ]
      constructor
      · intro t ht
        rcases List.mem_cons.mp ht with rfl | ht2
        · exact ⟨h0, h1⟩
        · have hm := hrec.1 t ht2
          rw [hdata] at hm
          exact hm
      · obtain ⟨l, hl⟩ := runTrace_cons ops s1
        rw [hl, List.chain'_cons]
        exact ⟨hmono, hl ▸ hrec.2⟩

/-- C9, amended: restricted to non-negative sizes, every state in a trace
from a fresh cursor satisfies 0 ≤ position ≤ length(buffer) and positions
never decrease; unconditionally (any size, any state), read(n) succeeds
exactly when position + n ≤ length(buffer), advances the position by exactly
n on success with the buffer untouched, and leaves the stream unchanged on
failure. -/
theorem C9_cursor_amended :
    (∀ (data : Bytes) (ops : List Op), (∀ op ∈ ops, 0 ≤ op.size) →
        (∀ t ∈ runTrace ops ⟨data, 0⟩, 0 ≤ t.index ∧ t.index ≤ data.length) ∧
        (runTrace ops ⟨data, 0⟩).Chain' (fun a b => a.index ≤ b.index)) ∧
    (∀ (s : Stream) (n : Int),
        ((∃ b s', s.read n = (.ok b, s')) ↔ s.index + n ≤ s.data.length) ∧
        (∀ b s', s.read n = (.ok b, s') → s'.index = s.index + n ∧ s'.data = s.data) ∧
        (∀ e s', s.read n = (.error e, s') → s' = s)) := by
  constructor
  · intro data ops hops
    exact runTrace_inv ops ⟨data, 0⟩ (by norm_num) (by norm_num) hops
  · intro s n
    refine ⟨⟨?_, ?_⟩, ?_, ?_⟩
    · rintro ⟨b, s', h⟩
      unfold Stream.read at h
      by_cases hc : (s.data.length : Int) < s.index + n
      · rw [if_pos hc] at h
        simp at h
      · omega
    · intro hle
      unfold Stream.read
      rw [if_neg (by omega)]
      exact ⟨_, _, rfl⟩
    · intro b s' h
      unfold Stream.read at h
      by_cases hc : (s.data.length : Int) < s.index + n
      · rw [if_pos hc] at h
        simp at h
      · rw [if_neg hc] at h
        injection h with h1' h2'
        subst h2'
        exact ⟨rfl, rfl⟩
    · intro e s' h
      unfold Stream.read at h
      by_cases hc : (s.data.length : Int) < s.index + n
      · rw [if_pos hc] at h
        injection h with h1' h2'
        exact h2'.symm
      · rw [if_neg hc] at h
        simp at h

/-- Witness for the amended C9 on the buffer [7, 8] with two read(1) calls. -/
theorem C9_cursor_amended_witness :
    ((∀ t ∈ runTrace [Op.read 1, Op.read 1] ⟨[7, 8], 0⟩,
        0 ≤ t.index ∧ t.index ≤ ([7, 8] : Bytes).length) ∧
      (runTrace [Op.read 1, Op.read 1] ⟨[7, 8], 0⟩).Chain'
        (fun a b => a.index ≤ b.index)) ∧
    (∃ b s', Stream.read ⟨[7, 8], 0⟩ 2 = (.ok b, s')) := by
  refine ⟨C9_cursor_amended.1 [7, 8] [Op.read 1, Op.read 1] (by decide), ?_⟩
  exact (C9_cursor_amended.2 ⟨[7, 8], 0⟩ 2).1.mpr (by decide)

/-! ## C10: negative string-length prefixes -/

/-- C10 as stated is false: read_string on the 10 bytes
ff fb 61 62 63 64 65 78 79 7a (length prefix -5 at index 0) does not return
the empty string — Python's negative slice endpoint wraps around to the end
of the buffer, so Stream.read(-5) returns the five bytes "abcde" and the
cursor lands at -3. -/
theorem C10_counterexample :
    read_string ⟨[255, 251, 97, 98, 99, 100, 101, 120, 121, 122], 0⟩ =
      (.ok [97, 98, 99, 100, 101],
        ⟨[255, 251, 97, 98, 99, 100, 101, 120, 121, 122], -3⟩) ∧
    [97, 98, 99, 100, 101] ≠ ([] : PyStr) := ⟨rfl, by simp⟩

lemma pyIdx_le (len : Nat) (i : Int) : pyIdx len i ≤ len := by
  unfold pyIdx
  split <;> omega

/-- Emptiness of a Python slice in terms of its normalised endpoints. -/
lemma pySlice_eq_nil_iff (l : Bytes) (a b : Int) :
    pySlice l a b = [] ↔ pyIdx l.length b ≤ pyIdx l.length a := by
  unfold pySlice
  rw [← List.length_eq_zero]
  simp only [List.length_drop, List.length_take]
  have := pyIdx_le l.length b
  omega

/-- C10, amended: a negative size always passes the bounds check when the
position is in bounds, and the index decreases by its magnitude — possibly
below zero; but the returned bytes are the Python slice
data[index : index+size], which is empty iff index+size ≥ 0 or
length+size ≤ 0, and otherwise wraps around to a nonempty slice
(theorem C10_counterexample).  Consequently read_string with a negative
length prefix returns the empty string exactly in the non-wrapping case,
with the cursor moved backwards. -/
theorem C10_negative_length_amended :
    (∀ (s : Stream) (n : Int), n < 0 → 0 ≤ s.index → s.index ≤ s.data.length →
        s.read n = (.ok (pySlice s.data s.index (s.index + n)),
          ⟨s.data, s.index + n⟩) ∧
        (pySlice s.data s.index (s.index + n) = [] ↔
          0 ≤ s.index + n ∨ (s.data.length : Int) + n ≤ 0)) ∧
    (∀ (d : Bytes) (i : Nat) (v : Int), i + 2 ≤ d.length →
        v = unpackSigned 16 ((d.drop i).take 2) → v < 0 →
        (0 ≤ (i : Int) + 2 + v ∨ (d.length : Int) + v ≤ 0) →
        read_string ⟨d, (i : Int)⟩ = (.ok [], ⟨d, (i : Int) + 2 + v⟩)) := by
  have hread : ∀ (s : Stream) (n : Int), n < 0 → 0 ≤ s.index →
      s.index ≤ s.data.length →
      s.read n = (.ok (pySlice s.data s.index (s.index + n)), ⟨s.data, s.index + n⟩) := by
    intro s n hn h0 h1
    unfold Stream.read
    rw [if_neg (by omega)]
  have hnil : ∀ (s : Stream) (n : Int), n < 0 → 0 ≤ s.index →
      s.index ≤ s.data.length →
      (pySlice s.data s.index (s.index + n) = [] ↔
        0 ≤ s.index + n ∨ (s.data.length : Int) + n ≤ 0) := by
    intro s n hn h0 h1
    rw [pySlice_eq_nil_iff]
    unfold pyIdx
    split <;> split <;> omega
  refine ⟨fun s n hn h0 h1 => ⟨hread s n hn h0 h1, hnil s n hn h0 h1⟩, ?_⟩
  intro d i v hlen hv hneg hcase
  unfold read_string
  rw [Stream.read_at d (i : Int) 2 i 2 rfl rfl hlen]
  dsimp only
  have hl2 : ((d.drop i).take 2).length = 2 := by
    simp only [List.length_take, List.length_drop]
    omega
  rw [if_pos hl2]
  have h0' : (0 : Int) ≤ ((i + 2 : Nat) : Int) := by omega
  have h1' : ((i + 2 : Nat) : Int) ≤ d.length := by omega
  rw [← hv, hread ⟨d, ((i + 2 : Nat) : Int)⟩ v hneg h0' h1']
  dsimp only
  have hemp : pySlice d ((i + 2 : Nat) : Int) (((i + 2 : Nat) : Int) + v) = [] := by
    rw [hnil ⟨d, ((i + 2 : Nat) : Int)⟩ v hneg h0' h1']
    dsimp only
    rcases hcase with hc | hc
    · left
      omega
    · right
      exact hc
  rw [hemp]
  have hidx : ((i + 2 : Nat) : Int) + v = (i : Int) + 2 + v := by push_cast; ring
  rw [hidx]
  rfl

/-- Witness for the amended C10: length prefix -2 at index 0 of a 3-byte
buffer returns the empty string and moves the cursor back to 0. -/
theorem C10_negative_length_amended_witness :
    read_string ⟨[255, 254, 9], (0 : Nat)⟩ = (.ok [], ⟨[255, 254, 9], ((0 : Nat) : Int) + 2 + (-2)⟩) :=
  C10_negative_length_amended.2 [255, 254, 9] 0 (-2) (by decide) (by decide)
    (by decide) (by decide)

end MineNBT
